import Mathlib

/-!
# Middleware routers `medium-clients` and `premium-clients`

A shallow embedding of `src/medium-clients.js` and `src/premium-clients.js`.

Both files build an Express `Router`, register one router-level middleware with
`router.use` and one terminal handler with `router.get('/', ...)`.  The callbacks are
embedded as Lean functions in explicit state-passing style: the mutable `res` object a
callback receives becomes an `Exchange` value that is threaded through, and the `next`
argument becomes a function on that state (calling `next()` runs what is behind it).

The Express calls the callbacks make (`res.status`, `res.send`, `res.header`) and the
router's stack walk are library code (Express 4); they are modelled here by their effect
on the response object:

* `url` of a `Request` is the router-relative *path* (query strings are not modelled);
* `send` follows Express: it generates the `ETag`, turns the status into 304 for a fresh
  conditional `GET` or `HEAD`, empties the entity for 204, 205 and 304 and writes no
  entity for `HEAD`.  `body` is the payload handed to `send`, `written` the entity that
  is put on the wire.  `Content-Type`, `Content-Length` and `Transfer-Encoding` are not
  modelled;
* the `Exchange` carries the request it answers (`res.req`), the two library primitives
  that are not computed here (the application's ETag function and `Date.parse`) and one
  ghost counter, `nextCalls`, that a `next` capability increments when it is invoked;
* the application file that mounts the two routers is not among the sources: the mount
  step (`mountRequest`) and the 404 written for a request handed back (`notFound`) are
  modelled separately.
-/

namespace Middlewares

/-! ## Request and response -/

/-- The fields of the Express request object that the two routers and `res.send` read;
`headers` holds the request headers under their lower-case names. -/
structure Request where
  method : String
  baseUrl : String
  originalUrl : String
  url : String
  headers : List (String × String) := []
deriving DecidableEq, Repr

/-- Header names are case-insensitive: they are stored and looked up in lower case. -/
def lower (s : String) : String :=
  ⟨s.data.map Char.toLower⟩

/-- The response object: status code (default 200), header map, payload handed to `send`
(if any), the entity written to the connection when the response was ended (if it was)
and whether the response has been ended. -/
structure Response where
  statusCode : Nat := 200
  headers : List (String × String) := []
  body : Option String := none
  finished : Bool := false
  written : Option String := none
deriving DecidableEq, Repr

namespace Response

/-- Express `res.status(code)`: stores the status code. -/
def status (res : Response) (code : Nat) : Response :=
  { res with statusCode := code }

/-- Express `res.header(field, value)` (alias of `res.set`): replaces the header. -/
def header (res : Response) (field value : String) : Response :=
  { res with
    headers := (lower field, value) :: res.headers.filter (fun p => p.1 != lower field) }

/-- Express `res.get(field)`: the value stored for a header name, if any. -/
def get (res : Response) (field : String) : Option String :=
  res.headers.lookup (lower field)

end Response

/-! ## Freshness of a conditional request (`req.fresh`) -/

/-- JavaScript truthiness of a header value that may be absent: absent and empty are
falsy. -/
def truthy : Option String → Bool
  | some s => s != ""
  | none => false

/-- The pieces of a character list between occurrences of `c`. -/
def splitAt (c : Char) : List Char → List (List Char)
  | [] => [[]]
  | a :: rest =>
    if a = c then [] :: splitAt c rest
    else
      match splitAt c rest with
      | [] => [[a]]
      | piece :: pieces => (a :: piece) :: pieces

/-- Removes the characters satisfying `p` from both ends. -/
def trimBy (p : Char → Bool) (cs : List Char) : List Char :=
  ((cs.dropWhile p).reverse.dropWhile p).reverse

/-- The characters the regular-expression class `\s` matches. -/
def isJsSpace (c : Char) : Bool :=
  c.toNat ∈ [0x09, 0x0a, 0x0b, 0x0c, 0x0d, 0x20, 0xa0, 0x1680, 0x2028, 0x2029, 0x202f,
    0x205f, 0x3000, 0xfeff] || (0x2000 ≤ c.toNat && c.toNat ≤ 0x200a)

/-- The function `parseTokenList` of the package `fresh`: the comma-separated tokens of
an `If-None-Match` value, without the blanks around them. -/
def parseTokenList (value : String) : List String :=
  (splitAt ',' value.data).map (fun piece => String.mk (trimBy (fun c => c == ' ') piece))

/-- The test `/(?:^|,)\s*?no-cache\s*?(?:,|$)/` on a `Cache-Control` value. -/
def noCache (value : String) : Bool :=
  (splitAt ',' value.data).any (fun piece => trimBy isJsSpace piece == "no-cache".data)

/-- Whether one of the tokens of `If-None-Match` names the response's entity tag. -/
def etagMatches (noneMatch etag : String) : Bool :=
  (parseTokenList noneMatch).any
    (fun m => m == etag || m == "W/" ++ etag || "W/" ++ m == etag)

/-- The package `fresh` (0.5.2, used by Express 4): whether the client's cached copy is
still good, from the request headers and the response's `ETag` and `Last-Modified`.
`parse` stands for `Date.parse` (`none` for a date it cannot read). -/
def Fresh.fresh (parse : String → Option Int) (reqHeaders : List (String × String))
    (etag lastModified : Option String) : Bool :=
  let modifiedSince := reqHeaders.lookup "if-modified-since"
  let noneMatch := reqHeaders.lookup "if-none-match"
  if !truthy modifiedSince && !truthy noneMatch then false
  else if
    (match reqHeaders.lookup "cache-control" with
      | some c => c != "" && noCache c
      | none => false) then false
  else if
    (match noneMatch with
      | some nm =>
        nm != "" && nm != "*" &&
          !(match etag with
            | some e => e != "" && etagMatches nm e
            | none => false)
      | none => false) then false
  else if
    (match modifiedSince with
      | some ms =>
        ms != "" &&
          !(match lastModified with
            | some lm =>
              lm != "" &&
                (match parse lm, parse ms with
                  | some a, some b => decide (a ≤ b)
                  | _, _ => false)
            | none => false)
      | none => false) then false
  else true

/-! ## The exchange -/

/-- The state one dispatch threads through the callbacks: the response object, the request
it answers (`res.req`), the application's ETag function (`none` when it produces no tag),
`Date.parse`, and a ghost counter of how many times a `next` capability has been invoked
so far. -/
structure Exchange where
  res : Response := {}
  nextCalls : Nat := 0
  req : Request := { method := "", baseUrl := "", originalUrl := "", url := "" }
  etagFn : String → Option String := fun _ => none
  parseHttpDate : String → Option Int := fun _ => none

namespace Exchange

/-- `res.status(code)` on the threaded state. -/
def status (x : Exchange) (code : Nat) : Exchange :=
  { x with res := x.res.status code }

/-- `res.header(field, value)` on the threaded state. -/
def header (x : Exchange) (field value : String) : Exchange :=
  { x with res := x.res.header field value }

/-- The step of `res.send` that populates `ETag`: when the response has none and the
application's ETag function yields one for the payload. -/
def withETag (x : Exchange) (payload : String) : Exchange :=
  if truthy (x.res.get "ETag") then x
  else
    match x.etagFn payload with
    | some tag => if tag != "" then x.header "ETag" tag else x
    | none => x

/-- Express `req.fresh`: only `GET` and `HEAD`, only with a 2xx or 304 status, and then
what the package `fresh` says. -/
def isFresh (x : Exchange) : Bool :=
  if x.req.method ≠ "GET" ∧ x.req.method ≠ "HEAD" then false
  else if (200 ≤ x.res.statusCode ∧ x.res.statusCode < 300) ∨ x.res.statusCode = 304 then
    Fresh.fresh x.parseHttpDate x.req.headers (x.res.get "ETag") (x.res.get "Last-Modified")
  else false

/-- Express `res.send(body)` for a string: populates `ETag`, sets the status to 304 when
the request is fresh, empties the entity for 204, 304 and 205, and ends the response,
writing the entity unless the method is `HEAD`. -/
def send (x : Exchange) (payload : String) : Exchange :=
  let x1 := x.withETag payload
  let x2 := if x1.isFresh then x1.status 304 else x1
  let chunk :=
    if x2.res.statusCode = 204 ∨ x2.res.statusCode = 304 ∨ x2.res.statusCode = 205 then ""
    else payload
  { x2 with
    res := { x2.res with
      body := some payload
      written := some (if x2.req.method = "HEAD" then "" else chunk)
      finished := true } }

/-- Ghost step taken whenever a `next` capability is invoked. -/
def noteNext (x : Exchange) : Exchange :=
  { x with nextCalls := x.nextCalls + 1 }

/-- A freshly created exchange: status 200, no headers, nothing sent, no `next` call; it is
not paired with a request yet and its application generates no ETag. -/
def fresh : Exchange := {}

/-- A freshly created exchange for a request: the response Express pairs with it. -/
def start (req : Request) : Exchange :=
  { req := req }

end Exchange

/-- The `next` capability handed to a middleware. -/
abbrev Next := Exchange → Exchange

/-- A middleware `(req, res, next) => ...`. -/
abbrev Middleware := Request → Exchange → Next → Exchange

/-- A terminal handler `(req, res) => ...`. -/
abbrev Handler := Request → Exchange → Exchange

/-- JavaScript `a || b` on strings: the empty string is the only falsy string. -/
def jsOr (a b : String) : String :=
  if a ≠ "" then a else b

/-! ## The Express router -/

/-- One entry of a router's stack: `router.use(fn)` or `router.get(path, fn)`. -/
inductive Layer where
  | use (fn : Middleware)
  | get (path : String) (fn : Handler)

/-- A `GET` route also answers `HEAD` when no `HEAD` handler was registered for the path
(Express `Route._handles_method`). -/
def handlesMethod (method : String) : Bool :=
  method == "GET" || method == "HEAD"

/-- The methods a `GET` route reports for the automatic `OPTIONS` reply. -/
def routeOptions : List String := ["GET", "HEAD"]

/-- Express `sendOptionsResponse`: the automatic reply to `OPTIONS` when a route matched
the path but nothing answered. -/
def sendOptionsResponse (options : List String) (x : Exchange) : Exchange :=
  let body := ",".intercalate options
  (x.header "Allow" body).send body

/-- The stack walk of `Router.handle`: layers are tried in registration order.  A `use`
layer runs for every request and receives the rest of the walk as `next`; a `get` layer
runs its handler when path and method match.  When the stack is exhausted the router
hands the request back through `out` (the parent then reports not found), unless it is an
`OPTIONS` request for which some route matched the path. -/
def dispatch (req : Request) (out : Next) : List Layer → List String → Exchange → Exchange
  | [], options, x =>
      if req.method = "OPTIONS" ∧ options ≠ [] then sendOptionsResponse options x
      else out x
  | Layer.use fn :: rest, options, x =>
      fn req x (fun y => dispatch req out rest options y.noteNext)
  | Layer.get path fn :: rest, options, x =>
      if req.url = path then
        if handlesMethod req.method then fn req x
        else if req.method = "OPTIONS" then dispatch req out rest (options ++ routeOptions) x
        else dispatch req out rest options x
      else dispatch req out rest options x

/-- An Express router: its stack of layers in registration order. -/
structure Router where
  stack : List Layer

namespace Router

/-- The call `router(req, res, out)`. -/
def handle (r : Router) (req : Request) (x : Exchange) (out : Next) : Exchange :=
  dispatch req out r.stack [] x

end Router

/-! ## `src/medium-clients.js` -/

namespace MediumClients

/-- Middleware: only `GET` is allowed. -/
def onlyGet : Middleware := fun req res next =>
  if req.method ≠ "GET" then
    (res.status 400).send "Invalid http request method"
  else
    next res

/-- The handler registered with `router.get('/', ...)`. -/
def getRoot : Handler := fun _req res =>
  res.send "Ruta clientes medium"

/-- The router with an arbitrary terminal handler on `GET /`. -/
def routerWith (h : Handler) : Router :=
  ⟨[Layer.use onlyGet, Layer.get "/" h]⟩

/-- The exported router: `router.use(onlyGet)` and then `router.get('/', ...)`. -/
def router : Router :=
  routerWith getRoot

end MediumClients

/-! ## `src/premium-clients.js` -/

namespace PremiumClients

/-- Middleware: adds the header `url` with the requested route. -/
def addRequestUrlHeader : Middleware := fun req res next =>
  let requestUrl := jsOr req.baseUrl (jsOr req.originalUrl req.url)
  next (res.header "url" requestUrl)

/-- The handler registered with `router.get('/', ...)`. -/
def getRoot : Handler := fun _req res =>
  res.send "Ruta clientes premium"

/-- The exported router: `router.use(addRequestUrlHeader)` and then `router.get('/', ...)`. -/
def router : Router :=
  ⟨[Layer.use addRequestUrlHeader, Layer.get "/" getRoot]⟩

end PremiumClients

/-- Modelled from the spec: the Root Dispatcher's reaction to a sub-router that hands a
request back (the application file that mounts the routers is not among the sources); it
writes a 404 response. -/
def notFound : Next := fun x =>
  { x with res := { x.res with statusCode := 404, finished := true } }

/-- Modelled from the spec: mounting a sub-router at a path, done by the application file
that is not among the sources, with the matching rule of Express `app.use`: the path
matches when it starts with the mount path, letter case disregarded, up to the end or a
"/"; `baseUrl` becomes the matched part as the client wrote it and `url` the rest. -/
def mountRequest (mountPath method path : String) (headers : List (String × String)) :
    Option Request :=
  let matched := path.data.take mountPath.length
  if lower (String.mk matched) = lower mountPath then
    match path.data.drop mountPath.length with
    | [] => some ⟨method, String.mk matched, path, "/", headers⟩
    | ['/'] => some ⟨method, String.mk matched, path, "/", headers⟩
    | '/' :: '/' :: rest => some ⟨method, String.mk matched, path, String.mk ('/' :: rest), headers⟩
    | '/' :: rest => some ⟨method, String.mk matched, path, String.mk ('/' :: rest), headers⟩
    | _ => none
  else none

/-- A request `POST /medium-clients/x` as the medium router receives it. -/
def postMediumX : Request :=
  { method := "POST", baseUrl := "/medium-clients",
    originalUrl := "/medium-clients/x", url := "/x" }

/-- A request `HEAD /medium-clients` as the medium router receives it. -/
def headMediumRoot : Request :=
  { method := "HEAD", baseUrl := "/medium-clients",
    originalUrl := "/medium-clients", url := "/" }

/-- A request `GET /medium-clients/x` as the medium router receives it. -/
def getMediumX : Request :=
  { method := "GET", baseUrl := "/medium-clients",
    originalUrl := "/medium-clients/x", url := "/x" }

/-- A request `DELETE /premium-clients` as the premium router receives it. -/
def deletePremiumRoot : Request :=
  { method := "DELETE", baseUrl := "/premium-clients",
    originalUrl := "/premium-clients", url := "/" }

/-- A request `GET /premium-clients` as the premium router receives it. -/
def getPremiumRoot : Request :=
  { method := "GET", baseUrl := "/premium-clients",
    originalUrl := "/premium-clients", url := "/" }

/-- A request `GET /PREMIUM-CLIENTS` as the premium router receives it. -/
def getPremiumUpper : Request :=
  { method := "GET", baseUrl := "/PREMIUM-CLIENTS",
    originalUrl := "/PREMIUM-CLIENTS", url := "/" }

/-- A request `GET /medium-clients` as the medium router receives it. -/
def getMediumRoot : Request :=
  { method := "GET", baseUrl := "/medium-clients",
    originalUrl := "/medium-clients", url := "/" }

/-- A conditional request `GET /medium-clients` with `If-None-Match: *`. -/
def getMediumRootIfNoneMatch : Request :=
  { method := "GET", baseUrl := "/medium-clients",
    originalUrl := "/medium-clients", url := "/", headers := [("if-none-match", "*")] }

/-- A conditional request `GET /premium-clients` with `If-None-Match: *`. -/
def getPremiumRootIfNoneMatch : Request :=
  { method := "GET", baseUrl := "/premium-clients",
    originalUrl := "/premium-clients", url := "/", headers := [("if-none-match", "*")] }

/-- The value `addRequestUrlHeader` computes for the header. -/
def PremiumClients.requestUrl (req : Request) : String :=
  jsOr req.baseUrl (jsOr req.originalUrl req.url)


/-! ## Lemmas on the response object -/

theorem lower_url : lower "url" = "url" := by decide

theorem lookup_filter_ne (k f : String) (h : k ≠ f) (l : List (String × String)) :
    (l.filter (fun p => p.1 != f)).lookup k = l.lookup k := by
  induction l with
  | nil => rfl
  | cons p l ih =>
    obtain ⟨a, b⟩ := p
    by_cases haf : a = f
    · subst haf
      have hka : (k == a) = false := by simpa using h
      simp [List.filter, List.lookup, hka, ih]
    · have hne : (a != f) = true := by simpa using haf
      by_cases hk : k = a
      · subst hk
        simp [List.filter, List.lookup, hne]
      · have hka : (k == a) = false := by simpa using hk
        simp [List.filter, List.lookup, hne, hka, ih]

theorem Response.get_header_same (res : Response) (f v : String) :
    (res.header f v).get f = some v := by
  simp [Response.get, Response.header, List.lookup]

theorem Response.get_header_ne (res : Response) (f v k : String)
    (h : lower k ≠ lower f) : (res.header f v).get k = res.get k := by
  have hk : (lower k == lower f) = false := by simpa using h
  simp [Response.get, Response.header, List.lookup, hk, lookup_filter_ne _ _ h]

theorem lower_etag : lower "ETag" = "etag" := by decide

theorem Exchange.withETag_cases (x : Exchange) (payload : String) :
    x.withETag payload = x ∨ ∃ tag, x.withETag payload = x.header "ETag" tag := by
  unfold Exchange.withETag
  split
  · exact Or.inl rfl
  · split
    · split
      · exact Or.inr ⟨_, rfl⟩
      · exact Or.inl rfl
    · exact Or.inl rfl

theorem Exchange.withETag_statusCode (x : Exchange) (payload : String) :
    (x.withETag payload).res.statusCode = x.res.statusCode := by
  rcases x.withETag_cases payload with h | ⟨tag, h⟩
  · rw [h]
  · rw [h]; rfl

theorem Exchange.withETag_req (x : Exchange) (payload : String) :
    (x.withETag payload).req = x.req := by
  rcases x.withETag_cases payload with h | ⟨tag, h⟩
  · rw [h]
  · rw [h]; rfl

theorem Exchange.withETag_nextCalls (x : Exchange) (payload : String) :
    (x.withETag payload).nextCalls = x.nextCalls := by
  rcases x.withETag_cases payload with h | ⟨tag, h⟩
  · rw [h]
  · rw [h]; rfl

theorem Exchange.withETag_get (x : Exchange) (payload name : String)
    (hname : lower name ≠ "etag") :
    (x.withETag payload).res.get name = x.res.get name := by
  rcases x.withETag_cases payload with h | ⟨tag, h⟩
  · rw [h]
  · rw [h]
    exact Response.get_header_ne _ _ _ _ (by rw [lower_etag]; exact hname)

theorem Exchange.isFresh_of_status (x : Exchange)
    (h : ¬((200 ≤ x.res.statusCode ∧ x.res.statusCode < 300) ∨ x.res.statusCode = 304)) :
    x.isFresh = false := by
  simp [Exchange.isFresh, h]

theorem Exchange.isFresh_of_unconditional (x : Exchange)
    (h1 : truthy (x.req.headers.lookup "if-modified-since") = false)
    (h2 : truthy (x.req.headers.lookup "if-none-match") = false) :
    x.isFresh = false := by
  have hf : ∀ etag lastModified : Option String,
      Fresh.fresh x.parseHttpDate x.req.headers etag lastModified = false := by
    intro etag lastModified
    simp [Fresh.fresh, h1, h2]
  simp [Exchange.isFresh, hf]

theorem Exchange.send_body (x : Exchange) (payload : String) :
    (x.send payload).res.body = some payload := rfl

theorem Exchange.send_finished (x : Exchange) (payload : String) :
    (x.send payload).res.finished = true := rfl

theorem Exchange.send_nextCalls (x : Exchange) (payload : String) :
    (x.send payload).nextCalls = x.nextCalls := by
  unfold Exchange.send
  by_cases h : (x.withETag payload).isFresh = true
  · simp [h, Exchange.status, Exchange.withETag_nextCalls]
  · simp [h, Exchange.withETag_nextCalls]

theorem Exchange.send_get (x : Exchange) (payload name : String)
    (hname : lower name ≠ "etag") :
    (x.send payload).res.get name = x.res.get name := by
  have h0 := x.withETag_get payload name hname
  unfold Exchange.send
  by_cases h : (x.withETag payload).isFresh = true
  · simpa [h, Exchange.status, Response.status, Response.get] using h0
  · simpa [h, Response.get] using h0

theorem Exchange.send_statusCode (x : Exchange) (payload : String) :
    (x.send payload).res.statusCode =
      if (x.withETag payload).isFresh = true then 304 else x.res.statusCode := by
  unfold Exchange.send
  by_cases h : (x.withETag payload).isFresh = true
  · simp [h, Exchange.status, Response.status]
  · simp [h, Exchange.withETag_statusCode]

theorem Exchange.send_written (x : Exchange) (payload : String) :
    (x.send payload).res.written =
      some (if x.req.method = "HEAD" then ""
        else if (x.withETag payload).isFresh = true then ""
        else if x.res.statusCode = 204 ∨ x.res.statusCode = 304 ∨ x.res.statusCode = 205
          then ""
        else payload) := by
  unfold Exchange.send
  by_cases h : (x.withETag payload).isFresh = true
  · simp [h, Exchange.status, Response.status, Exchange.withETag_req]
  · simp [h, Exchange.withETag_req, Exchange.withETag_statusCode]

/-! ## Unfolding the two routers -/

theorem handlesMethod_iff (m : String) :
    handlesMethod m = true ↔ m = "GET" ∨ m = "HEAD" := by
  simp [handlesMethod]

theorem MediumClients.handle_routerWith (h : Handler) (req : Request) (x : Exchange)
    (out : Next) :
    (MediumClients.routerWith h).handle req x out =
      if req.method ≠ "GET" then (x.status 400).send "Invalid http request method"
      else if req.url = "/" then h req x.noteNext
      else out x.noteNext := by
  by_cases hm : req.method = "GET"
  · by_cases hu : req.url = "/"
    · simp [MediumClients.routerWith, Router.handle, dispatch, MediumClients.onlyGet, hm, hu,
        handlesMethod]
    · simp [MediumClients.routerWith, Router.handle, dispatch, MediumClients.onlyGet, hm, hu]
  · simp [MediumClients.routerWith, Router.handle, dispatch, MediumClients.onlyGet, hm]

theorem PremiumClients.handle_router (req : Request) (x : Exchange) (out : Next) :
    PremiumClients.router.handle req x out =
      if req.url = "/" then
        if req.method = "GET" ∨ req.method = "HEAD" then
          ((x.header "url" (PremiumClients.requestUrl req)).noteNext).send
            "Ruta clientes premium"
        else if req.method = "OPTIONS" then
          sendOptionsResponse routeOptions
            (x.header "url" (PremiumClients.requestUrl req)).noteNext
        else out (x.header "url" (PremiumClients.requestUrl req)).noteNext
      else out (x.header "url" (PremiumClients.requestUrl req)).noteNext := by
  by_cases hu : req.url = "/"
  · by_cases hm : req.method = "GET" ∨ req.method = "HEAD"
    · have hh : handlesMethod req.method = true := (handlesMethod_iff _).2 hm
      simp [PremiumClients.router, Router.handle, dispatch, PremiumClients.addRequestUrlHeader,
        PremiumClients.requestUrl, PremiumClients.getRoot, hu, hm, hh]
    · have hh : handlesMethod req.method = false := by
        cases hb : handlesMethod req.method with
        | false => rfl
        | true => exact absurd ((handlesMethod_iff _).1 hb) hm
      by_cases ho : req.method = "OPTIONS"
      · simp [PremiumClients.router, Router.handle, dispatch,
          PremiumClients.addRequestUrlHeader, PremiumClients.requestUrl, hu, ho,
          routeOptions, handlesMethod]
      · simp [PremiumClients.router, Router.handle, dispatch,
          PremiumClients.addRequestUrlHeader, PremiumClients.requestUrl, hu, hm, hh, ho]
  · simp [PremiumClients.router, Router.handle, dispatch, PremiumClients.addRequestUrlHeader,
      PremiumClients.requestUrl, hu]

theorem requestUrl_of_baseUrl (req : Request) (h : req.baseUrl ≠ "") :
    PremiumClients.requestUrl req = req.baseUrl := by
  simp [PremiumClients.requestUrl, jsOr, h]


theorem Exchange.send_after_400 (x : Exchange) (payload : String) :
    ((x.status 400).send payload).res.statusCode = 400 ∧
      ((x.status 400).send payload).res.written =
        some (if x.req.method = "HEAD" then "" else payload) := by
  have hf : ((x.status 400).withETag payload).isFresh = false :=
    Exchange.isFresh_of_status _ (by
      rw [Exchange.withETag_statusCode]
      show ¬((200 ≤ 400 ∧ 400 < 300) ∨ 400 = 304)
      decide)
  constructor
  · rw [Exchange.send_statusCode, hf]; rfl
  · rw [Exchange.send_written, hf]
    have hs : (x.status 400).res.statusCode = 400 := rfl
    have hr : (x.status 400).req = x.req := rfl
    simp [hs, hr]

theorem Exchange.send_of_200 (x : Exchange) (payload : String)
    (hs : x.res.statusCode = 200) (hm : x.req.method ≠ "HEAD") :
    ((x.send payload).res.statusCode = 200 ∧ (x.send payload).res.written = some payload) ∨
      ((x.send payload).res.statusCode = 304 ∧ (x.send payload).res.written = some "") := by
  rw [Exchange.send_statusCode, Exchange.send_written]
  by_cases hf : (x.withETag payload).isFresh = true
  · right; simp [hf, hm]
  · left; simp [hf, hm, hs]

theorem Exchange.send_unconditional (x : Exchange) (payload : String)
    (hs : x.res.statusCode = 200) (hm : x.req.method ≠ "HEAD")
    (h1 : truthy (x.req.headers.lookup "if-none-match") = false)
    (h2 : truthy (x.req.headers.lookup "if-modified-since") = false) :
    (x.send payload).res.statusCode = 200 ∧ (x.send payload).res.written = some payload := by
  have hf : (x.withETag payload).isFresh = false :=
    Exchange.isFresh_of_unconditional _ (by rw [Exchange.withETag_req]; exact h2)
      (by rw [Exchange.withETag_req]; exact h1)
  rw [Exchange.send_statusCode, Exchange.send_written]
  simp [hf, hm, hs]

/-! ## The claims -/

/-- C1 as stated fails for HEAD: a `HEAD /medium-clients` request is rejected with status
400, but the response carries no body, although the text was handed to `res.send`. -/
theorem medium_head_rejected_without_body :
    headMediumRoot.method ≠ "GET" ∧
      (MediumClients.router.handle headMediumRoot (Exchange.start headMediumRoot)
        notFound).res.statusCode = 400 ∧
      (MediumClients.router.handle headMediumRoot (Exchange.start headMediumRoot)
        notFound).res.written = some "" ∧
      (MediumClients.router.handle headMediumRoot (Exchange.start headMediumRoot)
        notFound).res.written ≠ some "Invalid http request method" := by
  decide

/-- C1 amended: every request the medium-clients router receives with a method other than
GET, whatever its sub-path, ends with status 400 and with "Invalid http request method"
handed to `res.send`; that text is the body of the final response for every such method
except HEAD, for which the final response has no body. -/
theorem medium_non_get_rejected (req : Request) (x : Exchange) (out : Next)
    (h : req.method ≠ "GET") :
    (MediumClients.router.handle req x out).res.statusCode = 400 ∧
      (MediumClients.router.handle req x out).res.body =
        some "Invalid http request method" ∧
      (MediumClients.router.handle req x out).res.finished = true ∧
      (x.req = req →
        (MediumClients.router.handle req x out).res.written =
          some (if req.method = "HEAD" then "" else "Invalid http request method")) := by
  have key : MediumClients.router.handle req x out =
      (x.status 400).send "Invalid http request method" := by
    simp [MediumClients.router, MediumClients.handle_routerWith, h]
  rw [key]
  refine ⟨(Exchange.send_after_400 _ _).1, rfl, rfl, ?_⟩
  intro hx
  rw [(Exchange.send_after_400 _ _).2, hx]

theorem medium_non_get_rejected_witness :
    postMediumX.method ≠ "GET" ∧
      (MediumClients.router.handle postMediumX (Exchange.start postMediumX)
        notFound).res.statusCode = 400 ∧
      (MediumClients.router.handle postMediumX (Exchange.start postMediumX)
        notFound).res.written = some "Invalid http request method" :=
  ⟨by decide,
    (medium_non_get_rejected postMediumX (Exchange.start postMediumX) notFound
      (by decide)).1,
    (medium_non_get_rejected postMediumX (Exchange.start postMediumX) notFound
      (by decide)).2.2.2 rfl⟩

/-- The header `url` the premium-clients router leaves is the value computed from the
request, whatever the method and the sub-path, provided the parent leaves that header
alone when a request is handed back to it. -/
theorem premium_url_header_value (req : Request) (x : Exchange) (out : Next)
    (hout : ∀ y : Exchange, (out y).res.get "url" = y.res.get "url") :
    (PremiumClients.router.handle req x out).res.get "url" =
      some (PremiumClients.requestUrl req) := by
  have hx : ((x.header "url" (PremiumClients.requestUrl req)).noteNext).res.get "url" =
      some (PremiumClients.requestUrl req) := Response.get_header_same _ _ _
  have hu : lower "url" ≠ "etag" := by decide
  rw [PremiumClients.handle_router]
  split
  · split
    · rw [Exchange.send_get _ _ _ hu]; exact hx
    · split
      · have hne : lower "url" ≠ lower "Allow" := by decide
        simp only [sendOptionsResponse]
        rw [Exchange.send_get _ _ _ hu]
        exact (Response.get_header_ne _ _ _ _ hne).trans hx
      · rw [hout]; exact hx
  · rw [hout]; exact hx

/-- C2, the code at the failing input: `GET /PREMIUM-CLIENTS` is delivered to the router
mounted at "/premium-clients" with `baseUrl` spelled as the client wrote it, and the header
url is "/PREMIUM-CLIENTS", not "/premium-clients". -/
theorem premium_url_header_follows_spelling :
    mountRequest "/premium-clients" "GET" "/PREMIUM-CLIENTS" [] = some getPremiumUpper ∧
      (PremiumClients.router.handle getPremiumUpper (Exchange.start getPremiumUpper)
        notFound).res.get "url" = some "/PREMIUM-CLIENTS" ∧
      (PremiumClients.router.handle getPremiumUpper (Exchange.start getPremiumUpper)
        notFound).res.get "url" ≠ some "/premium-clients" := by
  decide

/-- C3 as stated fails for a conditional request: `GET /medium-clients` with
`If-None-Match: *` is answered with status 304 and an empty body. -/
theorem medium_conditional_get_not_modified :
    getMediumRootIfNoneMatch.method = "GET" ∧ getMediumRootIfNoneMatch.url = "/" ∧
      (MediumClients.router.handle getMediumRootIfNoneMatch
        (Exchange.start getMediumRootIfNoneMatch) notFound).res.statusCode = 304 ∧
      (MediumClients.router.handle getMediumRootIfNoneMatch
        (Exchange.start getMediumRootIfNoneMatch) notFound).res.written = some "" ∧
      (MediumClients.router.handle getMediumRootIfNoneMatch
        (Exchange.start getMediumRootIfNoneMatch) notFound).res.written ≠
          some "Ruta clientes medium" := by
  decide

/-- C3 amended: a GET request with sub-path "/" to the medium-clients router, answered on
a response whose status is the default 200, has "Ruta clientes medium" handed to
`res.send` and ends either with status 200 and that text as body, or with status 304 and
an empty body; it is status 200 with the text whenever the request is unconditional (has
neither `If-None-Match` nor `If-Modified-Since`). -/
theorem medium_get_root (req : Request) (x : Exchange) (out : Next)
    (hm : req.method = "GET") (hu : req.url = "/")
    (hx : x.req = req) (hs : x.res.statusCode = 200) :
    (MediumClients.router.handle req x out).res.body = some "Ruta clientes medium" ∧
      (MediumClients.router.handle req x out).res.finished = true ∧
      (((MediumClients.router.handle req x out).res.statusCode = 200 ∧
          (MediumClients.router.handle req x out).res.written =
            some "Ruta clientes medium") ∨
        ((MediumClients.router.handle req x out).res.statusCode = 304 ∧
          (MediumClients.router.handle req x out).res.written = some "")) ∧
      (truthy (req.headers.lookup "if-none-match") = false →
        truthy (req.headers.lookup "if-modified-since") = false →
        (MediumClients.router.handle req x out).res.statusCode = 200 ∧
          (MediumClients.router.handle req x out).res.written =
            some "Ruta clientes medium") := by
  have key : MediumClients.router.handle req x out =
      x.noteNext.send "Ruta clientes medium" := by
    simp [MediumClients.router, MediumClients.handle_routerWith, hm, hu,
      MediumClients.getRoot]
  have hreq : x.noteNext.req = req := hx
  have hhead : x.noteNext.req.method ≠ "HEAD" := by rw [hreq, hm]; decide
  have hst : x.noteNext.res.statusCode = 200 := hs
  rw [key]
  refine ⟨rfl, rfl, Exchange.send_of_200 _ _ hst hhead, ?_⟩
  intro h1 h2
  exact Exchange.send_unconditional _ _ hst hhead (by rw [hreq]; exact h1)
    (by rw [hreq]; exact h2)

theorem medium_get_root_witness :
    getMediumRoot.method = "GET" ∧ getMediumRoot.url = "/" ∧
      (MediumClients.router.handle getMediumRoot (Exchange.start getMediumRoot)
        notFound).res.statusCode = 200 ∧
      (MediumClients.router.handle getMediumRoot (Exchange.start getMediumRoot)
        notFound).res.written = some "Ruta clientes medium" :=
  ⟨rfl, rfl,
    ((medium_get_root getMediumRoot (Exchange.start getMediumRoot) notFound rfl rfl rfl
      rfl).2.2.2 rfl rfl).1,
    ((medium_get_root getMediumRoot (Exchange.start getMediumRoot) notFound rfl rfl rfl
      rfl).2.2.2 rfl rfl).2⟩

/-- C4 as stated fails for a conditional request: `GET /premium-clients` with
`If-None-Match: *` carries the header url but is answered with status 304 and an empty
body. -/
theorem premium_conditional_get_not_modified :
    getPremiumRootIfNoneMatch.method = "GET" ∧ getPremiumRootIfNoneMatch.url = "/" ∧
      (PremiumClients.router.handle getPremiumRootIfNoneMatch
        (Exchange.start getPremiumRootIfNoneMatch) notFound).res.get "url" =
          some "/premium-clients" ∧
      (PremiumClients.router.handle getPremiumRootIfNoneMatch
        (Exchange.start getPremiumRootIfNoneMatch) notFound).res.statusCode = 304 ∧
      (PremiumClients.router.handle getPremiumRootIfNoneMatch
        (Exchange.start getPremiumRootIfNoneMatch) notFound).res.written = some "" ∧
      (PremiumClients.router.handle getPremiumRootIfNoneMatch
        (Exchange.start getPremiumRootIfNoneMatch) notFound).res.written ≠
          some "Ruta clientes premium" := by
  decide

/-- C4 amended: a GET request with sub-path "/" that reaches the premium-clients router
with `baseUrl` "/premium-clients", answered on a response whose status is the default 200,
is finalised by the terminal handler on the response the middleware has already written
the header to: it carries the header url equal to "/premium-clients", has
"Ruta clientes premium" handed to `res.send`, and ends either with status 200 and that
text as body or with status 304 and an empty body; it is status 200 with the text whenever
the request is unconditional. -/
theorem premium_get_root (req : Request) (x : Exchange) (out : Next)
    (hm : req.method = "GET") (hu : req.url = "/")
    (hb : req.baseUrl = "/premium-clients")
    (hx : x.req = req) (hs : x.res.statusCode = 200) :
    PremiumClients.router.handle req x out =
        PremiumClients.getRoot req (x.header "url" "/premium-clients").noteNext ∧
      (PremiumClients.router.handle req x out).res.get "url" = some "/premium-clients" ∧
      (PremiumClients.router.handle req x out).res.body = some "Ruta clientes premium" ∧
      (((PremiumClients.router.handle req x out).res.statusCode = 200 ∧
          (PremiumClients.router.handle req x out).res.written =
            some "Ruta clientes premium") ∨
        ((PremiumClients.router.handle req x out).res.statusCode = 304 ∧
          (PremiumClients.router.handle req x out).res.written = some "")) ∧
      (truthy (req.headers.lookup "if-none-match") = false →
        truthy (req.headers.lookup "if-modified-since") = false →
        (PremiumClients.router.handle req x out).res.statusCode = 200 ∧
          (PremiumClients.router.handle req x out).res.written =
            some "Ruta clientes premium") := by
  have hv : PremiumClients.requestUrl req = "/premium-clients" := by
    rw [requestUrl_of_baseUrl req (by rw [hb]; decide), hb]
  have key : PremiumClients.router.handle req x out =
      (x.header "url" "/premium-clients").noteNext.send "Ruta clientes premium" := by
    rw [PremiumClients.handle_router, hv]
    simp [hm, hu]
  have hreq : (x.header "url" "/premium-clients").noteNext.req = req := hx
  have hhead : (x.header "url" "/premium-clients").noteNext.req.method ≠ "HEAD" := by
    rw [hreq, hm]; decide
  have hst : (x.header "url" "/premium-clients").noteNext.res.statusCode = 200 := hs
  have hurl : lower "url" ≠ "etag" := by decide
  rw [key]
  refine ⟨rfl, ?_, rfl, Exchange.send_of_200 _ _ hst hhead, ?_⟩
  · rw [Exchange.send_get _ _ _ hurl]
    exact Response.get_header_same _ _ _
  · intro h1 h2
    exact Exchange.send_unconditional _ _ hst hhead (by rw [hreq]; exact h1)
      (by rw [hreq]; exact h2)

theorem premium_get_root_witness :
    getPremiumRoot.method = "GET" ∧ getPremiumRoot.url = "/" ∧
      getPremiumRoot.baseUrl = "/premium-clients" ∧
      (PremiumClients.router.handle getPremiumRoot (Exchange.start getPremiumRoot)
        notFound).res.get "url" = some "/premium-clients" ∧
      (PremiumClients.router.handle getPremiumRoot (Exchange.start getPremiumRoot)
        notFound).res.written = some "Ruta clientes premium" :=
  ⟨rfl, rfl, rfl,
    (premium_get_root getPremiumRoot (Exchange.start getPremiumRoot) notFound rfl rfl rfl
      rfl rfl).2.1,
    ((premium_get_root getPremiumRoot (Exchange.start getPremiumRoot) notFound rfl rfl rfl
      rfl rfl).2.2.2.2 rfl rfl).2⟩

/-- C5: addRequestUrlHeader sets the header url to `baseUrl` when that is not empty,
otherwise to `originalUrl`, and to the router-relative `url` only when both are empty; it
then calls `next`, exactly once, on the response so updated. -/
theorem addRequestUrlHeader_sets_and_continues (req : Request) (x : Exchange)
    (next : Next) :
    PremiumClients.addRequestUrlHeader req x next =
        next (x.header "url"
          (if req.baseUrl ≠ "" then req.baseUrl
           else if req.originalUrl ≠ "" then req.originalUrl else req.url)) ∧
      (x.header "url"
          (if req.baseUrl ≠ "" then req.baseUrl
           else if req.originalUrl ≠ "" then req.originalUrl else req.url)).res.get "url" =
        some (if req.baseUrl ≠ "" then req.baseUrl
           else if req.originalUrl ≠ "" then req.originalUrl else req.url) ∧
      (PremiumClients.addRequestUrlHeader req x Exchange.noteNext).nextCalls =
        x.nextCalls + 1 :=
  ⟨rfl, Response.get_header_same _ _ _, rfl⟩

/-- C6: for a request to the medium-clients router whose method is not GET, onlyGet
answers by itself whatever `next` is and never invokes it; the router's result does not
depend on the terminal handler registered on GET "/", no `next` call is recorded and the
body is not "Ruta clientes medium". -/
theorem medium_non_get_short_circuits (req : Request) (x : Exchange) (out : Next)
    (h : req.method ≠ "GET") :
    (∀ next : Next, MediumClients.onlyGet req x next =
        (x.status 400).send "Invalid http request method") ∧
      (MediumClients.onlyGet req x Exchange.noteNext).nextCalls = x.nextCalls ∧
      (∀ handler : Handler, (MediumClients.routerWith handler).handle req x out =
        MediumClients.router.handle req x out) ∧
      (MediumClients.router.handle req x out).nextCalls = x.nextCalls ∧
      (MediumClients.router.handle req x out).res.body ≠ some "Ruta clientes medium" := by
  have hg : ∀ next : Next, MediumClients.onlyGet req x next =
      (x.status 400).send "Invalid http request method" := by
    intro next
    simp [MediumClients.onlyGet, h]
  have hr : ∀ handler : Handler, (MediumClients.routerWith handler).handle req x out =
      (x.status 400).send "Invalid http request method" := by
    intro handler
    simp [MediumClients.handle_routerWith, h]
  refine ⟨hg, ?_, ?_, ?_, ?_⟩
  · rw [hg, Exchange.send_nextCalls]; rfl
  · intro handler
    rw [MediumClients.router, hr, hr]
  · rw [MediumClients.router, hr, Exchange.send_nextCalls]; rfl
  · rw [MediumClients.router, hr, Exchange.send_body]
    decide

theorem medium_non_get_short_circuits_witness :
    postMediumX.method ≠ "GET" ∧
      (MediumClients.router.handle postMediumX Exchange.fresh notFound).nextCalls = 0 ∧
      (MediumClients.router.handle postMediumX Exchange.fresh notFound).res.body ≠
        some "Ruta clientes medium" :=
  ⟨by decide,
    (medium_non_get_short_circuits postMediumX Exchange.fresh notFound (by decide)).2.2.2.1,
    (medium_non_get_short_circuits postMediumX Exchange.fresh notFound (by decide)).2.2.2.2⟩

/-- C7 as stated fails: POST with sub-path "/x" on the medium-clients router has no
registered terminal handler, yet the answer is the guard's 400 and not the 404 the parent
writes for a request handed back. -/
theorem unmatched_pair_answered_400 :
    ¬(postMediumX.method = "GET" ∧ postMediumX.url = "/") ∧
      (MediumClients.router.handle postMediumX Exchange.fresh notFound).res.statusCode = 400 ∧
      (MediumClients.router.handle postMediumX Exchange.fresh notFound).res.statusCode ≠ 404 ∧
      (MediumClients.router.handle postMediumX Exchange.fresh notFound).res.body =
        some "Invalid http request method" := by
  decide

/-- C7 amended: the premium-clients router hands back to its parent, unanswered and with
the header url already written, every request other than GET, HEAD or OPTIONS on sub-path
"/"; the medium-clients router hands back every GET request whose sub-path is not "/".
With the parent writing 404 for a request handed back, the status is 404 in both cases. -/
theorem unmatched_pair_handed_back (req : Request) (x : Exchange) (out : Next) :
    (¬(req.url = "/" ∧
        (req.method = "GET" ∨ req.method = "HEAD" ∨ req.method = "OPTIONS")) →
      PremiumClients.router.handle req x out =
          out (x.header "url" (PremiumClients.requestUrl req)).noteNext ∧
        (PremiumClients.router.handle req x notFound).res.statusCode = 404) ∧
      (req.method = "GET" → req.url ≠ "/" →
        MediumClients.router.handle req x out = out x.noteNext ∧
        (MediumClients.router.handle req x notFound).res.statusCode = 404) := by
  constructor
  · intro hp
    have key : ∀ o : Next, PremiumClients.router.handle req x o =
        o (x.header "url" (PremiumClients.requestUrl req)).noteNext := by
      intro o
      rw [PremiumClients.handle_router]
      by_cases hu : req.url = "/"
      · have hm : ¬(req.method = "GET" ∨ req.method = "HEAD" ∨ req.method = "OPTIONS") :=
          fun hm => hp ⟨hu, hm⟩
        have h1 : ¬(req.method = "GET" ∨ req.method = "HEAD") := by
          rintro (h | h)
          · exact hm (Or.inl h)
          · exact hm (Or.inr (Or.inl h))
        have h2 : ¬req.method = "OPTIONS" := fun h => hm (Or.inr (Or.inr h))
        simp [hu, h1, h2]
      · simp [hu]
    exact ⟨key out, by rw [key]; rfl⟩
  · intro hm hu
    have key : ∀ o : Next, MediumClients.router.handle req x o = o x.noteNext := by
      intro o
      simp [MediumClients.router, MediumClients.handle_routerWith, hm, hu]
    exact ⟨key out, by rw [key]; rfl⟩

theorem unmatched_pair_handed_back_witness :
    (PremiumClients.router.handle deletePremiumRoot Exchange.fresh
        notFound).res.statusCode = 404 ∧
      (MediumClients.router.handle getMediumX Exchange.fresh
        notFound).res.statusCode = 404 :=
  ⟨((unmatched_pair_handed_back deletePremiumRoot Exchange.fresh notFound).1
      (by decide)).2,
    ((unmatched_pair_handed_back getMediumX Exchange.fresh notFound).2 rfl
      (by decide)).2⟩

/-- C9: each middleware invokes `next` at most once per call: onlyGet once when the method
is GET and not at all otherwise, addRequestUrlHeader once; and when onlyGet does not invoke
it, the response is finished, with status 400 and body "Invalid http request method". -/
theorem next_called_at_most_once (req : Request) (x : Exchange) :
    (MediumClients.onlyGet req x Exchange.noteNext).nextCalls =
        x.nextCalls + (if req.method = "GET" then 1 else 0) ∧
      (MediumClients.onlyGet req x Exchange.noteNext).nextCalls ≤ x.nextCalls + 1 ∧
      (PremiumClients.addRequestUrlHeader req x Exchange.noteNext).nextCalls =
        x.nextCalls + 1 ∧
      (req.method = "GET" ∨
        ((MediumClients.onlyGet req x Exchange.noteNext).nextCalls = x.nextCalls ∧
          (MediumClients.onlyGet req x Exchange.noteNext).res.finished = true ∧
          (MediumClients.onlyGet req x Exchange.noteNext).res.statusCode = 400 ∧
          (MediumClients.onlyGet req x Exchange.noteNext).res.body =
            some "Invalid http request method")) := by
  by_cases h : req.method = "GET"
  · simp [MediumClients.onlyGet, PremiumClients.addRequestUrlHeader, h, Exchange.noteNext,
      Exchange.header]
  · have hg : MediumClients.onlyGet req x Exchange.noteNext =
        (x.status 400).send "Invalid http request method" := by
      simp [MediumClients.onlyGet, h]
    have hn : ((x.status 400).send "Invalid http request method").nextCalls = x.nextCalls := by
      rw [Exchange.send_nextCalls]; rfl
    rw [hg, hn]
    refine ⟨by simp [h], by omega, rfl, Or.inr ⟨rfl, rfl, ?_, rfl⟩⟩
    exact (Exchange.send_after_400 _ _).1

/-- C10: addRequestUrlHeader leaves the status code, the body, the finished flag and every
header whose name is not url (names compared without regard to case) as they were; what
it hands to `next` differs from what it received in the header url only. -/
theorem addRequestUrlHeader_frame (req : Request) (x : Exchange) :
    (PremiumClients.addRequestUrlHeader req x id).res.statusCode = x.res.statusCode ∧
      (PremiumClients.addRequestUrlHeader req x id).res.body = x.res.body ∧
      (PremiumClients.addRequestUrlHeader req x id).res.finished = x.res.finished ∧
      (PremiumClients.addRequestUrlHeader req x id).nextCalls = x.nextCalls ∧
      (∀ name : String, lower name ≠ "url" →
        (PremiumClients.addRequestUrlHeader req x id).res.get name = x.res.get name) ∧
      (∀ next : Next, PremiumClients.addRequestUrlHeader req x next =
        next (PremiumClients.addRequestUrlHeader req x id)) := by
  refine ⟨rfl, rfl, rfl, rfl, ?_, fun _ => rfl⟩
  intro name hname
  exact Response.get_header_ne _ _ _ _ (by rw [lower_url]; exact hname)

end Middlewares
